import Mathlib

/-!
Shallow embedding of the response-rendering core of `parks-ui/src/App.jsx`:
envelope decoding and error extraction in `callEndpoint`, the markdown
renderer, the chart-data normalizers (`renderLineChart`,
`renderStackedBarChart`, `renderTimeline`) together with the dispatcher
`renderChart`, the image resize and size-guard pipeline, and the telemetry
aggregation in `LogsView`.
-/

namespace ParksUI

/-- JSON values as delivered by `response.json()`.  Numbers are restricted to
integers (no claim exercises fractional JSON numbers).  An absent property
reads as `Option.none` at the access site, mirroring JavaScript `undefined`. -/
inductive Json where
  | null
  | bool (b : Bool)
  | num (n : Int)
  | str (s : String)
  | arr (elems : List Json)
  | obj (fields : List (String × Json))

/-- Property access `v.f`: field lookup on objects, `undefined` (= `none`)
otherwise. -/
def Json.getField : Json → String → Option Json
  | .obj fs, k => fs.lookup k
  | _, _ => none

/-- JavaScript truthiness of a defined value. -/
def Json.truthy : Json → Bool
  | .null => false
  | .bool b => b
  | .num n => n != 0
  | .str s => s != ""
  | .arr _ => true
  | .obj _ => true

/-- Optional chaining `x?.f`: short-circuits on `undefined` and `null`,
otherwise ordinary property access (which yields `undefined` on
non-objects). -/
def jsGet (x : Option Json) (f : String) : Option Json :=
  match x with
  | none => none
  | some .null => none
  | some v => v.getField f

/-- JavaScript `a || b` on possibly-undefined values: `a` when defined and
truthy, else `b`. -/
def jsOr (a b : Option Json) : Option Json :=
  match a with
  | some v => if v.truthy then some v else b
  | none => b

/-- JavaScript `String(v)` (as used by `new Error(v)` for a non-string `v`),
with a structural-size fuel making the nested array recursion structural.
`null`/`undefined` elements of an array stringify to the empty string. -/
def jsStringFuel : Nat → Json → String
  | _, .null => "null"
  | _, .bool b => cond b "true" "false"
  | _, .num n => toString n
  | _, .str s => s
  | 0, .arr _ => ""
  | fuel + 1, .arr xs =>
      String.intercalate "," (xs.map fun x =>
        match x with
        | .null => ""
        | y => jsStringFuel fuel y)
  | _, .obj _ => "[object Object]"

/-- JavaScript `String(v)`.  The fuel bounds the array-nesting depth; values
nested deeper than this are not modeled (no claim exercises nested arrays). -/
def jsString (v : Json) : String := jsStringFuel 1000000 v

/-- Outcome of the non-2xx error path of `callEndpoint`: either the message
of the `Error` deliberately thrown on App.jsx line 82, or the `TypeError`
raised by the plain `errorData.detail` access on line 79 when the parsed
body is the JSON literal `null` (property access on `null` throws; the
engine-specific TypeError message text is not modeled). -/
inductive ExtractOutcome where
  | thrown (message : String)
  | typeError
  deriving DecidableEq

/-- Error extraction from `callEndpoint` (App.jsx lines 76-83).
`errorBody = none` models `r.json()` rejecting (unparseable body), in which
case `.catch(() => ({}))` substitutes an empty object.  A body that parses
to the JSON literal `null` reaches line 79, where the unguarded
`errorData.detail` access throws a TypeError; every other body produces the
message of the `Error` thrown on line 82. -/
def extractErrorMessage (errorBody : Option Json) (status : Nat)
    (statusText : String) : ExtractOutcome :=
  let errorData := errorBody.getD (Json.obj [])
  match errorData with
  | Json.null => ExtractOutcome.typeError
  | _ =>
    let detail : Json :=
      match errorData.getField "detail" with
      | some (Json.str s) => Json.str s
      | _ =>
          (jsOr (jsGet (errorData.getField "detail") "error")
            (jsOr (jsGet (errorData.getField "detail") "message")
              (some (Json.str "")))).getD Json.null
    ExtractOutcome.thrown
      (if detail.truthy then jsString detail
       else toString status ++ " " ++ statusText)

/-- Success-path decoding (App.jsx lines 85-90): the parsed JSON body is
stored as the response verbatim (`setResp(data)`), with no defaulting of
absent fields. -/
def decodeEnvelope (body : Json) : Json := body

/-- The guard shared by `ChartsView`, `TablesView`, `CitationsView` and
`LogsView` (`if (!xs || !xs.length) return null`): `true` iff the collection
renders. -/
def collectionViewRenders : Option Json → Bool
  | none => false
  | some .null => false
  | some (.bool _) => false
  | some (.num _) => false
  | some (.str s) => s != ""
  | some (.arr l) => !l.isEmpty
  | some (.obj _) => false

/-! ### Chart data model and normalizers -/

/-- One data point of a series (`{x, y}`).  `x` is modeled as an integer
(numeric/ordinal axis), `y` as a rational. -/
structure DataPoint where
  x : Int
  y : ℚ

/-- One series of a line / bar / stacked-bar chart (`{name, data}`). -/
structure Series where
  name : String
  data : List DataPoint

/-- A timeline entry.  `dateMs` is the numeric value of the parsed date
(`new Date(item.date).getTime()`; a `null` date parses to epoch 0), `cost`
is `none` when the field is not a number. -/
structure TimelineEntry where
  park : String
  dateMs : Int
  sessions : Int
  cost : Option ℚ

/-- A backend chart specification.  Line/bar/stacked charts populate
`series`; timeline charts populate `data` and `sort_order`. -/
structure ChartSpec where
  type : String
  series : List Series
  data : List TimelineEntry
  sort_order : Option String

/-- All x-values of all series in order
(`chart.series.flatMap((s) => s.data.map((d) => d.x))`). -/
def seriesXs (series : List Series) : List Int :=
  series.flatMap fun s => s.data.map (·.x)

/-- `[...new Set(l)]` keeping only values not in `seen`: JavaScript `Set`
insertion keeps the first occurrence of each value, in encounter order. -/
def jsSetDedupAux (seen : List Int) : List Int → List Int
  | [] => []
  | a :: rest =>
      if a ∈ seen then jsSetDedupAux seen rest
      else a :: jsSetDedupAux (a :: seen) rest

/-- `[...new Set(l)]`: distinct values in first-encounter order. -/
def jsSetDedup (l : List Int) : List Int := jsSetDedupAux [] l

/-- `renderLineChart` x-domain (App.jsx lines 240-242):
`[...new Set(chart.series.flatMap((s) => s.data.map((d) => d.x)))].sort((a, b) => a - b)`. -/
def lineXDomain (series : List Series) : List Int :=
  (jsSetDedup (seriesXs series)).insertionSort (· ≤ ·)

/-- The per-series value of a line-chart row (App.jsx lines 247-248):
`series.data.find((d) => d.x === xVal)` and then `point ? point.y : null`;
`none` is the missing-value (null) gap marker. -/
def lineValue (s : Series) (xVal : Int) : Option ℚ :=
  (s.data.find? fun d => d.x == xVal).map (·.y)

/-- `renderLineChart` dataset (App.jsx lines 244-251): one row per distinct
x, every row carrying one `(name, value?)` entry per series. -/
def lineChartData (series : List Series) :
    List (Int × List (String × Option ℚ)) :=
  (lineXDomain series).map fun xVal =>
    (xVal, series.map fun s => (s.name, lineValue s xVal))

/-- `renderBarChart` dataset (App.jsx lines 293-296): first series only,
points verbatim in original order. -/
def barChartData (series : List Series) : List (Int × ℚ) :=
  ((series.headD ⟨"", []⟩).data).map fun d => (d.x, d.y)

/-- `renderStackedBarChart` x-domain (App.jsx lines 332-334): distinct x in
first-encounter order, NOT sorted. -/
def stackedXDomain (series : List Series) : List Int :=
  jsSetDedup (seriesXs series)

/-- The per-series value of a stacked-bar row (App.jsx lines 338-339):
`point ? point.y : 0` — a missing point contributes zero, never a gap
marker (the value type has no missing marker). -/
def stackedValue (s : Series) (xVal : Int) : ℚ :=
  match s.data.find? fun d => d.x == xVal with
  | some p => p.y
  | none => 0

/-- `renderStackedBarChart` dataset (App.jsx lines 335-342). -/
def stackedChartData (series : List Series) :
    List (Int × List (String × ℚ)) :=
  (stackedXDomain series).map fun xVal =>
    (xVal, series.map fun s => (s.name, stackedValue s xVal))

/-- `renderTimeline` sorting (App.jsx lines 384-387): a stable sort of the
entries by parsed date, ascending when `sort_order === "asc"`, descending
for every other value (including absent). -/
def renderTimelineEntries (sortOrder : Option String)
    (data : List TimelineEntry) : List TimelineEntry :=
  if sortOrder = some "asc" then
    data.insertionSort fun a b => a.dateMs ≤ b.dateMs
  else
    data.insertionSort fun a b => b.dateMs ≤ a.dateMs

/-- Normalized, renderer-ready chart data, one variant per chart kind plus
the explicit unsupported placeholder. -/
inductive ChartData where
  | line (rows : List (Int × List (String × Option ℚ)))
  | bar (rows : List (Int × ℚ))
  | stacked (rows : List (Int × List (String × ℚ)))
  | timeline (entries : List TimelineEntry)
  | unsupported (type : String)

/-- The dispatcher `renderChart` (App.jsx lines 230-237). -/
def renderChart (chart : ChartSpec) : ChartData :=
  if chart.type = "line" then .line (lineChartData chart.series)
  else if chart.type = "bar" then .bar (barChartData chart.series)
  else if chart.type = "bar_stacked" then .stacked (stackedChartData chart.series)
  else if chart.type = "timeline" then
    .timeline (renderTimelineEntries chart.sort_order chart.data)
  else .unsupported chart.type

/-- Reference formulation of "distinct values in first-encounter order",
written directly from the specification's words, to be compared with the
source-derived `jsSetDedup`. -/
def firstEncounterDedup (l : List Int) : List Int :=
  l.foldl (fun acc x => if x ∈ acc then acc else acc ++ [x]) []

/-! ### Telemetry aggregation (`LogsView`, App.jsx lines 510-521) -/

/-- One tool-execution log entry.  `elapsed_ms = none` models an absent or
null field (NaN is not modeled; `some 0` covers the remaining falsy
number). -/
structure ToolLog where
  tool : String
  ok : Bool
  elapsed_ms : Option ℚ

/-- `logs.reduce((sum, l) => sum + (l.elapsed_ms || 0), 0)` (line 514):
a falsy `elapsed_ms` (absent, null, zero) contributes 0. -/
def totalToolTime (logs : List ToolLog) : ℚ :=
  logs.foldl (fun sum l => sum + l.elapsed_ms.getD 0) 0

/-- `logs.filter(l => l.ok).length` (line 515). -/
def successCount (logs : List ToolLog) : Nat :=
  (logs.filter (·.ok)).length

/-- `logs.filter(l => !l.ok).length` (line 516). -/
def failCount (logs : List ToolLog) : Nat :=
  (logs.filter fun l => !l.ok).length

/-- `e2eLatency ? e2eLatency - totalToolTime : null` (line 519): `none`
models both a missing and a zero end-to-end measurement (falsy guard). -/
def networkTime (e2e : Option ℚ) (logs : List ToolLog) : Option ℚ :=
  match e2e with
  | some v => if v ≠ 0 then some (v - totalToolTime logs) else none
  | none => none

/-- `e2eLatency ? (networkTime / e2eLatency * 100) : null` (line 520). -/
def networkPercent (e2e : Option ℚ) (logs : List ToolLog) : Option ℚ :=
  match e2e with
  | some v => if v ≠ 0 then some ((v - totalToolTime logs) / v * 100) else none
  | none => none

/-- `e2eLatency ? (totalToolTime / e2eLatency * 100) : null` (line 521). -/
def toolPercent (e2e : Option ℚ) (logs : List ToolLog) : Option ℚ :=
  match e2e with
  | some v => if v ≠ 0 then some (totalToolTime logs / v * 100) else none
  | none => none

/-! ### Image preprocessing (`img.onload`, App.jsx lines 788-825) -/

/-- Target-dimension computation (lines 790-804): cap the longer edge at
`MAX_SIZE = 1920`, scaling the other edge proportionally; dimensions are
modeled as exact rationals. -/
def computeTargetDims (w h : ℚ) : ℚ × ℚ :=
  if w > h then
    if w > 1920 then (1920, h * 1920 / w) else (w, h)
  else
    if h > 1920 then (w * 1920 / h, 1920) else (w, h)

/-- The alert text of the size-guard rejection (line 821). -/
def imageTooLargeMsg : String :=
  "⚠️ Image still too large after compression. Try a smaller image."

/-- Size guard after re-encoding (lines 814-825): when the estimated byte
size `base64String.length * 0.75` exceeds 5 MiB the held `imageUri` state is
left unchanged and a blocking alert is returned; otherwise the state is
replaced with the new payload (`setImageUri(base64String)`). -/
def processEncodedImage (imageUri : String) (base64String : String) :
    String × Option String :=
  if (base64String.length : ℚ) * 0.75 > 5 * 1024 * 1024 then
    (imageUri, some imageTooLargeMsg)
  else
    (base64String, none)

/-! ### Markdown renderer (`renderMarkdown`, App.jsx lines 102-119)

The source applies sequential regex replacements to the raw string and hands
the result to `dangerouslySetInnerHTML`.  All patterns carry the `m` flag and
`.` does not match a newline, so the heading, bold and dash-list
replacements are line-local and are modeled as per-line rewrites over the
newline-split text; the numbered-list pattern contains `\s+`, which does
match newlines, so that pass is modeled as a scan of the whole text. -/

/-- Split a character list at newline characters (the line structure that
the `m`-flagged anchors see). -/
def splitLinesAux : List Char → List Char → List (List Char)
  | [], cur => [cur.reverse]
  | '\n' :: rest, cur => cur.reverse :: splitLinesAux rest []
  | c :: rest, cur => splitLinesAux rest (c :: cur)

/-- The newline-separated lines of a text. -/
def splitLines (cs : List Char) : List (List Char) :=
  splitLinesAux cs []

/-- Rejoin lines with newlines. -/
def joinLines : List (List Char) → List Char
  | [] => []
  | [l] => l
  | l :: ls => l ++ '\n' :: joinLines ls

/-- Apply a line-local pass to every line. -/
def linesMap (f : List Char → List Char) (cs : List Char) : List Char :=
  joinLines ((splitLines cs).map f)

/-- One heading pass, e.g. `html.replace(/^# (.*)$/gim, ...)` on one line:
a line starting with the marker (hashes plus one space) is wrapped in the
given tags. -/
def headingLine (marker openTag closeTag : List Char) (line : List Char) :
    List Char :=
  if marker.isPrefixOf line then
    openTag ++ line.drop marker.length ++ closeTag
  else line

/-- Locate the first `**`; returns the text before it and the text after
it. -/
def findDoubleStar : List Char → Option (List Char × List Char)
  | '*' :: '*' :: rest => some ([], rest)
  | c :: rest => (findDoubleStar rest).map fun p => (c :: p.1, p.2)
  | [] => none

/-- One bold pass (`html.replace(/\x2a\x2a(.*?)\x2a\x2a/gim, "<strong>$1</strong>")`)
on one line: each non-overlapping, non-greedy `**...**` pair becomes a
`<strong>` element; an unpaired `**` stays literal.  The fuel is consumed
one character (or more) per step, so the line length is always
sufficient. -/
def boldAux : Nat → List Char → List Char
  | 0, s => s
  | _ + 1, [] => []
  | fuel + 1, '*' :: '*' :: rest =>
      match findDoubleStar rest with
      | some (inner, rest2) =>
          "<strong>".toList ++ inner ++ "</strong>".toList ++ boldAux fuel rest2
      | none => '*' :: '*' :: rest
  | fuel + 1, c :: rest => c :: boldAux fuel rest

/-- One bold pass on one line. -/
def boldLine (line : List Char) : List Char :=
  boldAux line.length line

/-- One attempted match of `/^\d+\.\s+(.*)$/` at a line-start position:
one or more digits, a literal period, then greedy `\s+` (which matches
newlines, so the match can span lines), then the capture `(.*)` running to
the end of the line the whitespace run stopped in.  Returns the capture and
the unconsumed suffix (beginning with that line's newline, or empty). -/
def numberedItemAt (cs : List Char) : Option (List Char × List Char) :=
  match cs.takeWhile Char.isDigit, cs.dropWhile Char.isDigit with
  | _ :: _, '.' :: r2 =>
      if (r2.takeWhile Char.isWhitespace).isEmpty then none
      else
        let r3 := r2.dropWhile Char.isWhitespace
        some (r3.takeWhile (· ≠ '\n'), r3.dropWhile (· ≠ '\n'))
  | _, _ => none

/-- The numbered-list pass
(`html.replace(/^\d+\.\s+(.*)$/gim, "<li>$1</li>")`) scanning the whole
text: the `^` anchor holds at the start and after each newline; each match
is replaced by `<li>$1</li>` and scanning resumes after the match.  A match
consumes at least two characters, so length-of-text fuel is sufficient. -/
def numberedPassAux : Nat → Bool → List Char → List Char
  | 0, _, cs => cs
  | _ + 1, _, [] => []
  | fuel + 1, atStart, c :: rest =>
      if atStart then
        match numberedItemAt (c :: rest) with
        | some (cap, after) =>
            "<li>".toList ++ cap ++ "</li>".toList
              ++ numberedPassAux fuel false after
        | none => c :: numberedPassAux fuel (c = '\n') rest
      else c :: numberedPassAux fuel (c = '\n') rest

/-- The numbered-list pass on the whole text. -/
def numberedPass (cs : List Char) : List Char :=
  numberedPassAux cs.length true cs

/-- One dash-list pass (`html.replace(/^- (.*)$/gim, "<li>$1</li>")`) on one
line. -/
def dashListLine (line : List Char) : List Char :=
  if "- ".toList.isPrefixOf line then
    "<li>".toList ++ line.drop 2 ++ "</li>".toList
  else line

/-- The paragraph pass `html.replace(/\n\n+/g, "<br/><br/>")`: every maximal
run of two or more newlines becomes `<br/><br/>`.  Fuel as in `boldAux`. -/
def brAux : Nat → List Char → List Char
  | 0, s => s
  | _ + 1, [] => []
  | fuel + 1, '\n' :: '\n' :: rest =>
      "<br/><br/>".toList ++ brAux fuel (rest.dropWhile (· = '\n'))
  | fuel + 1, c :: rest => c :: brAux fuel rest

/-- The paragraph pass on the whole text. -/
def brPass (cs : List Char) : List Char :=
  brAux cs.length cs

/-- `renderMarkdown`'s HTML production (App.jsx lines 105-116): the
sequential replacement passes in source order — h3, h2, h1 headings, bold,
numbered list items, dash list items, paragraph breaks.  The result is a
raw HTML string (assigned via `dangerouslySetInnerHTML`), not a node
tree. -/
def renderMarkdownHtml (md : String) : String :=
  let html := md.toList
  let html := linesMap (headingLine "### ".toList
    "<h3 class=\"md-h3\">".toList "</h3>".toList) html
  let html := linesMap (headingLine "## ".toList
    "<h2 class=\"md-h2\">".toList "</h2>".toList) html
  let html := linesMap (headingLine "# ".toList
    "<h1 class=\"md-h1\">".toList "</h1>".toList) html
  let html := linesMap boldLine html
  let html := numberedPass html
  let html := linesMap dashListLine html
  String.mk (brPass html)

/-- `renderMarkdown` (App.jsx lines 102-119): `null` for a falsy input,
otherwise the raw HTML string that the component injects as innerHTML. -/
def renderMarkdown (md : String) : Option String :=
  if md = "" then none else some (renderMarkdownHtml md)

/-! ### Helper lemmas about the Set-based deduplication -/

theorem mem_jsSetDedupAux {a : Int} :
    ∀ {l seen : List Int}, a ∈ jsSetDedupAux seen l ↔ a ∈ l ∧ a ∉ seen := by
  intro l
  induction l with
  | nil => intro seen; simp [jsSetDedupAux]
  | cons b rest ih =>
      intro seen
      by_cases hb : b ∈ seen
      · rw [jsSetDedupAux, if_pos hb, ih]
        simp only [List.mem_cons]
        constructor
        · rintro ⟨h1, h2⟩; exact ⟨Or.inr h1, h2⟩
        · rintro ⟨h1 | h1, h2⟩
          · exact absurd (h1 ▸ hb) h2
          · exact ⟨h1, h2⟩
      · rw [jsSetDedupAux, if_neg hb]
        simp only [List.mem_cons, ih]
        constructor
        · rintro (rfl | ⟨h1, h2⟩)
          · exact ⟨Or.inl rfl, hb⟩
          · exact ⟨Or.inr h1, fun hc => h2 (Or.inr hc)⟩
        · rintro ⟨rfl | h1, h2⟩
          · exact Or.inl rfl
          · by_cases hab : a = b
            · exact Or.inl hab
            · exact Or.inr ⟨h1, fun hc => hc.elim hab h2⟩

theorem nodup_jsSetDedupAux :
    ∀ (l seen : List Int), (jsSetDedupAux seen l).Nodup := by
  intro l
  induction l with
  | nil => intro seen; simp [jsSetDedupAux]
  | cons b rest ih =>
      intro seen
      by_cases hb : b ∈ seen
      · simpa [jsSetDedupAux, if_pos hb] using ih seen
      · rw [jsSetDedupAux, if_neg hb]
        refine List.nodup_cons.mpr ⟨?_, ih (b :: seen)⟩
        intro hmem
        exact (mem_jsSetDedupAux.mp hmem).2 (List.mem_cons_self b seen)

theorem nodup_jsSetDedup (l : List Int) : (jsSetDedup l).Nodup :=
  nodup_jsSetDedupAux l []

theorem mem_jsSetDedup {a : Int} {l : List Int} :
    a ∈ jsSetDedup l ↔ a ∈ l := by
  simp [jsSetDedup, mem_jsSetDedupAux]

theorem jsSetDedupAux_congr :
    ∀ {l s₁ s₂ : List Int}, (∀ a, a ∈ s₁ ↔ a ∈ s₂) →
      jsSetDedupAux s₁ l = jsSetDedupAux s₂ l := by
  intro l
  induction l with
  | nil => intro s₁ s₂ _; rfl
  | cons b rest ih =>
      intro s₁ s₂ h
      by_cases hb : b ∈ s₁
      · rw [jsSetDedupAux, if_pos hb, jsSetDedupAux, if_pos ((h b).mp hb), ih h]
      · rw [jsSetDedupAux, if_neg hb, jsSetDedupAux,
          if_neg (fun hc => hb ((h b).mpr hc))]
        congr 1
        exact ih fun a => by simp [List.mem_cons, h a]

theorem foldl_firstEncounter :
    ∀ (l acc : List Int),
      l.foldl (fun acc x => if x ∈ acc then acc else acc ++ [x]) acc
        = acc ++ jsSetDedupAux acc l := by
  intro l
  induction l with
  | nil => intro acc; simp [jsSetDedupAux]
  | cons b rest ih =>
      intro acc
      rw [List.foldl_cons]
      by_cases hb : b ∈ acc
      · simp only [if_pos hb]
        rw [ih acc, jsSetDedupAux, if_pos hb]
      · simp only [if_neg hb]
        rw [ih (acc ++ [b]), jsSetDedupAux, if_neg hb,
          @jsSetDedupAux_congr rest (acc ++ [b]) (b :: acc)
            (fun a => by simp [List.mem_append, List.mem_cons, or_comm])]
        simp

/-- The source-derived Set-spread deduplication is exactly the
specification's "distinct values in first-encounter order". -/
theorem jsSetDedup_eq_firstEncounterDedup (l : List Int) :
    jsSetDedup l = firstEncounterDedup l := by
  simpa [firstEncounterDedup, jsSetDedup] using (foldl_firstEncounter l []).symm

theorem totalToolTime_eq_sum (logs : List ToolLog) :
    totalToolTime logs = (logs.map fun l => l.elapsed_ms.getD 0).sum := by
  suffices h : ∀ (logs : List ToolLog) (a : ℚ),
      logs.foldl (fun sum l => sum + l.elapsed_ms.getD 0) a
        = a + (logs.map fun l => l.elapsed_ms.getD 0).sum by
    simpa [totalToolTime] using h logs 0
  intro logs
  induction logs with
  | nil => intro a; simp
  | cons l rest ih => intro a; simp [ih, add_assoc]

/-! ### Concrete example data used by witnesses -/

/-- A line chart whose two series overlap on x = 3 only. -/
def lineChartEx : ChartSpec :=
  ⟨"line", [⟨"a", [⟨3, 1⟩, ⟨1, 2⟩]⟩, ⟨"b", [⟨2, 5⟩, ⟨3, 7⟩]⟩], [], none⟩

/-- A stacked-bar chart with the same two series. -/
def stackedChartEx : ChartSpec :=
  ⟨"bar_stacked", [⟨"a", [⟨3, 1⟩, ⟨1, 2⟩]⟩, ⟨"b", [⟨2, 5⟩, ⟨3, 7⟩]⟩], [], none⟩

/-- A timeline chart with no `sort_order` (descending default). -/
def timelineChartEx : ChartSpec :=
  ⟨"timeline", [],
    [⟨"p", 5, 1, none⟩, ⟨"q", 2, 3, some 10⟩, ⟨"r", 9, 0, none⟩], none⟩

/-- The spec's telemetry example: elapsed_ms = [120, 300, 80]. -/
def telemetryEx : List ToolLog :=
  [⟨"a", true, some 120⟩, ⟨"b", true, some 300⟩, ⟨"c", false, some 80⟩]

/-! ### C1 — line-chart normalization -/

/-- C1: for every ChartSpec of type "line", the dispatcher yields the line
dataset; its x-domain is the set of distinct x-values across all series,
sorted strictly ascending by numeric order; the dataset has exactly one row
per distinct x (the rows' x column is exactly the x-domain, which has no
duplicates); and in each row a series' value is the missing-value gap
marker `none` (null) precisely when the series has no data point at that x —
in particular a missing point is never represented by zero. -/
theorem line_chart_normalization (chart : ChartSpec)
    (hty : chart.type = "line") :
    renderChart chart = ChartData.line (lineChartData chart.series)
    ∧ (lineXDomain chart.series).Sorted (· < ·)
    ∧ (∀ v : Int, v ∈ lineXDomain chart.series ↔
        ∃ s ∈ chart.series, ∃ p ∈ s.data, p.x = v)
    ∧ (lineChartData chart.series).map Prod.fst = lineXDomain chart.series
    ∧ (∀ s ∈ chart.series, ∀ xVal ∈ lineXDomain chart.series,
        (lineValue s xVal = none ↔ ∀ p ∈ s.data, p.x ≠ xVal)) := by
  refine ⟨by simp [renderChart, hty], ?_, ?_, ?_, ?_⟩
  · have hs : (lineXDomain chart.series).Sorted (· ≤ ·) :=
      List.sorted_insertionSort _ _
    have hn : (lineXDomain chart.series).Nodup :=
      ((List.perm_insertionSort _ _).nodup_iff).mpr (nodup_jsSetDedup _)
    exact hs.lt_of_le hn
  · intro v
    rw [lineXDomain, List.mem_insertionSort, mem_jsSetDedup, seriesXs]
    simp [List.mem_flatMap, List.mem_map]
  · have h : (Prod.fst ∘ fun xVal : Int =>
        (xVal, chart.series.map fun s => (s.name, lineValue s xVal))) = id := rfl
    rw [lineChartData, List.map_map, h, List.map_id]
  · intro s _ xVal _
    simp [lineValue, List.find?_eq_none]

/-- C1 witness: the theorem applied to a concrete line chart. -/
theorem line_chart_normalization_witness :
    lineChartEx.type = "line"
    ∧ (renderChart lineChartEx = ChartData.line (lineChartData lineChartEx.series)
      ∧ (lineXDomain lineChartEx.series).Sorted (· < ·)
      ∧ (∀ v : Int, v ∈ lineXDomain lineChartEx.series ↔
          ∃ s ∈ lineChartEx.series, ∃ p ∈ s.data, p.x = v)
      ∧ (lineChartData lineChartEx.series).map Prod.fst = lineXDomain lineChartEx.series
      ∧ (∀ s ∈ lineChartEx.series, ∀ xVal ∈ lineXDomain lineChartEx.series,
          (lineValue s xVal = none ↔ ∀ p ∈ s.data, p.x ≠ xVal))) :=
  ⟨rfl, line_chart_normalization lineChartEx rfl⟩

/-! ### C2 — stacked-bar-chart normalization -/

/-- C2: for every ChartSpec of type "bar_stacked", the dispatcher yields the
stacked dataset; its x-domain is the set of distinct x-values across all
series in first-encounter order (equal to the reference first-encounter
deduplication, with no duplicates), the rows' x column is exactly that
domain, and a series with no data point at an x contributes exactly 0 there
(the stacked value type has no gap marker at all). -/
theorem stacked_chart_normalization (chart : ChartSpec)
    (hty : chart.type = "bar_stacked") :
    renderChart chart = ChartData.stacked (stackedChartData chart.series)
    ∧ stackedXDomain chart.series = firstEncounterDedup (seriesXs chart.series)
    ∧ (stackedXDomain chart.series).Nodup
    ∧ (∀ v : Int, v ∈ stackedXDomain chart.series ↔
        ∃ s ∈ chart.series, ∃ p ∈ s.data, p.x = v)
    ∧ (stackedChartData chart.series).map Prod.fst = stackedXDomain chart.series
    ∧ (∀ s ∈ chart.series, ∀ xVal ∈ stackedXDomain chart.series,
        (∀ p ∈ s.data, p.x ≠ xVal) → stackedValue s xVal = 0) := by
  refine ⟨by simp [renderChart, hty], jsSetDedup_eq_firstEncounterDedup _,
    nodup_jsSetDedup _, ?_, ?_, ?_⟩
  · intro v
    rw [stackedXDomain, mem_jsSetDedup, seriesXs]
    simp [List.mem_flatMap, List.mem_map]
  · have h : (Prod.fst ∘ fun xVal : Int =>
        (xVal, chart.series.map fun s => (s.name, stackedValue s xVal))) = id := rfl
    rw [stackedChartData, List.map_map, h, List.map_id]
  · intro s _ xVal _ h
    have hf : s.data.find? (fun d => d.x == xVal) = none :=
      List.find?_eq_none.mpr fun p hp => by simpa using h p hp
    simp [stackedValue, hf]

/-- C2 witness: the theorem applied to a concrete stacked chart, together
with the concrete first-encounter (unsorted) domain it produces. -/
theorem stacked_chart_normalization_witness :
    stackedChartEx.type = "bar_stacked"
    ∧ stackedXDomain stackedChartEx.series = [3, 1, 2]
    ∧ (renderChart stackedChartEx = ChartData.stacked (stackedChartData stackedChartEx.series)
      ∧ stackedXDomain stackedChartEx.series = firstEncounterDedup (seriesXs stackedChartEx.series)
      ∧ (stackedXDomain stackedChartEx.series).Nodup
      ∧ (∀ v : Int, v ∈ stackedXDomain stackedChartEx.series ↔
          ∃ s ∈ stackedChartEx.series, ∃ p ∈ s.data, p.x = v)
      ∧ (stackedChartData stackedChartEx.series).map Prod.fst = stackedXDomain stackedChartEx.series
      ∧ (∀ s ∈ stackedChartEx.series, ∀ xVal ∈ stackedXDomain stackedChartEx.series,
          (∀ p ∈ s.data, p.x ≠ xVal) → stackedValue s xVal = 0)) :=
  ⟨rfl, by decide, stacked_chart_normalization stackedChartEx rfl⟩

/-! ### C8 — timeline sorting -/

instance : IsTotal TimelineEntry fun a b => a.dateMs ≤ b.dateMs :=
  ⟨fun a b => le_total a.dateMs b.dateMs⟩

instance : IsTrans TimelineEntry fun a b => a.dateMs ≤ b.dateMs :=
  ⟨fun _ _ _ h₁ h₂ => le_trans h₁ h₂⟩

instance : IsTotal TimelineEntry fun a b => b.dateMs ≤ a.dateMs :=
  ⟨fun a b => le_total b.dateMs a.dateMs⟩

instance : IsTrans TimelineEntry fun a b => b.dateMs ≤ a.dateMs :=
  ⟨fun _ _ _ h₁ h₂ => le_trans h₂ h₁⟩

/-- C8: for every ChartSpec of type "timeline", the dispatcher yields the
sorted timeline entries; when `sort_order` is "asc" their parsed dates form
a non-decreasing sequence, and for any other `sort_order` value (including
"desc" and absent) they form a non-increasing sequence. -/
theorem timeline_sort_by_order (chart : ChartSpec)
    (hty : chart.type = "timeline") :
    renderChart chart
      = ChartData.timeline (renderTimelineEntries chart.sort_order chart.data)
    ∧ (chart.sort_order = some "asc" →
        ((renderTimelineEntries chart.sort_order chart.data).map
          (·.dateMs)).Sorted (· ≤ ·))
    ∧ (chart.sort_order ≠ some "asc" →
        ((renderTimelineEntries chart.sort_order chart.data).map
          (·.dateMs)).Sorted fun a b => b ≤ a) := by
  refine ⟨by simp [renderChart, hty], ?_, ?_⟩
  · intro h
    rw [renderTimelineEntries, if_pos h]
    have hs := List.sorted_insertionSort
      (fun a b : TimelineEntry => a.dateMs ≤ b.dateMs) chart.data
    exact List.Pairwise.map _ (fun _ _ hab => hab) hs
  · intro h
    rw [renderTimelineEntries, if_neg h]
    have hs := List.sorted_insertionSort
      (fun a b : TimelineEntry => b.dateMs ≤ a.dateMs) chart.data
    exact List.Pairwise.map _ (fun _ _ hab => hab) hs

/-- C8 witness: the theorem applied to a concrete timeline chart without a
`sort_order` (descending default). -/
theorem timeline_sort_by_order_witness :
    timelineChartEx.type = "timeline"
    ∧ timelineChartEx.sort_order ≠ some "asc"
    ∧ ((renderTimelineEntries timelineChartEx.sort_order
        timelineChartEx.data).map (·.dateMs)).Sorted fun a b => b ≤ a :=
  ⟨rfl, by decide, (timeline_sort_by_order timelineChartEx rfl).2.2 (by decide)⟩

/-! ### C7 — telemetry aggregation -/

/-- C7: the aggregator computes `total_tool_ms` as the sum of `elapsed_ms`
over all logs, partitions the logs into success and fail counts by `ok`,
computes `network_ms = e2e_ms - total_tool_ms` without clamping (it may be
negative), guards `network_ms`, `tool_pct` and `network_pct` against a
zero/undefined e2e, and computes the percentages as
`total_tool_ms / e2e_ms * 100` and `network_ms / e2e_ms * 100`; in
particular elapsed_ms = [120, 300, 80] with e2e_ms = 900 gives
`total_tool_ms = 500` and `network_ms = 400` (and with e2e_ms = 100 the
unclamped `network_ms = -400`). -/
theorem telemetry_aggregation :
    (∀ (logs : List ToolLog) (es : List ℚ),
        logs.map (·.elapsed_ms) = es.map some → totalToolTime logs = es.sum)
    ∧ (∀ logs : List ToolLog, successCount logs + failCount logs = logs.length)
    ∧ (∀ (logs : List ToolLog) (v : ℚ), v ≠ 0 →
        networkTime (some v) logs = some (v - totalToolTime logs)
        ∧ toolPercent (some v) logs = some (totalToolTime logs / v * 100)
        ∧ networkPercent (some v) logs
            = some ((v - totalToolTime logs) / v * 100))
    ∧ (∀ logs : List ToolLog,
        networkTime none logs = none ∧ networkTime (some 0) logs = none
        ∧ toolPercent none logs = none ∧ toolPercent (some 0) logs = none
        ∧ networkPercent none logs = none
        ∧ networkPercent (some 0) logs = none)
    ∧ totalToolTime telemetryEx = 500
    ∧ networkTime (some 900) telemetryEx = some 400
    ∧ networkTime (some 100) telemetryEx = some (-400) := by
  refine ⟨?_, ?_, ?_, ?_, ?_, ?_, ?_⟩
  · intro logs es h
    rw [totalToolTime_eq_sum]
    have hm : logs.map (fun l => l.elapsed_ms.getD 0) = es := by
      calc logs.map (fun l => l.elapsed_ms.getD 0)
          = (logs.map (·.elapsed_ms)).map (fun o => o.getD 0) :=
            (List.map_map (fun o : Option ℚ => o.getD 0)
              (fun l : ToolLog => l.elapsed_ms) logs).symm
        _ = (es.map some).map (fun o => o.getD 0) := by rw [h]
        _ = es := by simp [Function.comp_def]
    rw [hm]
  · intro logs
    exact (List.length_eq_length_filter_add (fun l : ToolLog => l.ok)).symm
  · intro logs v hv
    exact ⟨by simp [networkTime, hv], by simp [toolPercent, hv],
      by simp [networkPercent, hv]⟩
  · intro logs
    refine ⟨rfl, ?_, rfl, ?_, rfl, ?_⟩ <;>
      simp [networkTime, toolPercent, networkPercent]
  · norm_num [totalToolTime, telemetryEx]
  · norm_num [networkTime, totalToolTime, telemetryEx]
  · norm_num [networkTime, totalToolTime, telemetryEx]

/-- C7 witness: the sum computation applied to the spec's concrete
example. -/
theorem telemetry_aggregation_witness :
    totalToolTime telemetryEx = ([120, 300, 80] : List ℚ).sum :=
  telemetry_aggregation.1 telemetryEx [120, 300, 80] rfl

/-! ### C10 — falsy elapsed_ms contributes zero -/

/-- C10: a log entry whose `elapsed_ms` is absent/null (`none`) or zero
contributes exactly 0 to `total_tool_ms`: removing it leaves the total
unchanged, so the total stays a well-defined number when entries omit
`elapsed_ms`. -/
theorem falsy_elapsed_contributes_zero (pre post : List ToolLog)
    (l : ToolLog) (h : l.elapsed_ms = none ∨ l.elapsed_ms = some 0) :
    totalToolTime (pre ++ l :: post) = totalToolTime (pre ++ post) := by
  have hz : l.elapsed_ms.getD 0 = 0 := by rcases h with h | h <;> simp [h]
  simp [totalToolTime_eq_sum, hz]

/-- C10 witness: a log with an absent `elapsed_ms` in the middle of two
measured logs leaves the total at the sum of the measured ones. -/
theorem falsy_elapsed_contributes_zero_witness :
    ((⟨"t", true, none⟩ : ToolLog).elapsed_ms = none
      ∨ (⟨"t", true, none⟩ : ToolLog).elapsed_ms = some 0)
    ∧ totalToolTime ([⟨"a", true, some 120⟩] ++ (⟨"t", true, none⟩ : ToolLog)
          :: [⟨"c", false, some 80⟩])
        = totalToolTime ([⟨"a", true, some 120⟩] ++ [⟨"c", false, some 80⟩]) :=
  ⟨Or.inl rfl, falsy_elapsed_contributes_zero _ _ _ (Or.inl rfl)⟩

/-! ### C6 — image size guard -/

/-- C6: when the estimated encoded byte size (payload character length
times 0.75) exceeds 5 MiB, the preprocessor rejects with a blocking
user-visible error and leaves the previously held image payload unchanged;
the held state is replaced with the new payload exactly when the estimate
does not exceed 5 MiB (in which case no error is raised). -/
theorem image_size_guard (prev payload : String) :
    ((payload.length : ℚ) * 0.75 > 5 * 1024 * 1024 →
      processEncodedImage prev payload = (prev, some imageTooLargeMsg))
    ∧ ((payload.length : ℚ) * 0.75 ≤ 5 * 1024 * 1024 →
      processEncodedImage prev payload = (payload, none)) := by
  constructor
  · intro h
    simp [processEncodedImage, h]
  · intro h
    simp [processEncodedImage, not_lt.mpr h]

/-- A payload just over the 5 MiB estimate threshold
(6990507 * 0.75 > 5242880). -/
def bigPayload : String := String.mk (List.replicate 6990507 'a')

/-- C6 witness: a payload whose estimate exceeds 5 MiB is rejected and the
held state "held" is unchanged. -/
theorem image_size_guard_witness :
    ((bigPayload.length : ℚ) * 0.75 > 5 * 1024 * 1024)
    ∧ processEncodedImage "held" bigPayload = ("held", some imageTooLargeMsg) := by
  have hlen : bigPayload.length = 6990507 := by
    rw [bigPayload, String.length_mk, List.length_replicate]
  have hgt : (bigPayload.length : ℚ) * 0.75 > 5 * 1024 * 1024 := by
    rw [hlen]; norm_num
  exact ⟨hgt, (image_size_guard "held" bigPayload).1 hgt⟩

/-! ### C9 — image resize dimensions -/

/-- C9: the computed target dimensions preserve the aspect ratio
(`w' * h = h' * w`, i.e. w'/h' = w/h over exact arithmetic), both edges of
the result are at most 1920 (so the longer edge is capped at 1920), and an
image whose edges are both at most 1920 keeps its original dimensions. -/
theorem image_resize_dims (w h : ℚ) (hw : 0 < w) (hh : 0 < h) :
    (computeTargetDims w h).1 * h = (computeTargetDims w h).2 * w
    ∧ (computeTargetDims w h).1 ≤ 1920
    ∧ (computeTargetDims w h).2 ≤ 1920
    ∧ (w ≤ 1920 → h ≤ 1920 → computeTargetDims w h = (w, h)) := by
  unfold computeTargetDims
  split_ifs with hwh hcap hcap
  · refine ⟨?_, ?_, ?_, ?_⟩ <;> dsimp only
    · field_simp
      ring
    · exact le_refl _
    · rw [div_le_iff₀ hw]
      nlinarith
    · intro hw2 _
      exact absurd hw2 (not_le.mpr hcap)
  · refine ⟨?_, ?_, ?_, ?_⟩ <;> dsimp only
    · ring
    · exact not_lt.mp hcap
    · linarith [not_lt.mp hcap]
    · intro _ _; rfl
  · refine ⟨?_, ?_, ?_, ?_⟩ <;> dsimp only
    · field_simp
      ring
    · rw [div_le_iff₀ hh]
      nlinarith [not_lt.mp hwh]
    · exact le_refl _
    · intro _ hh2
      exact absurd hh2 (not_le.mpr hcap)
  · refine ⟨?_, ?_, ?_, ?_⟩ <;> dsimp only
    · ring
    · linarith [not_lt.mp hwh, not_lt.mp hcap]
    · exact not_lt.mp hcap
    · intro _ _; rfl

/-- C9 witness: a 3840 x 1080 image is resized to 1920 x 540. -/
theorem image_resize_dims_witness :
    (0 : ℚ) < 3840 ∧ (0 : ℚ) < 1080
    ∧ computeTargetDims 3840 1080 = (1920, 540)
    ∧ ((computeTargetDims 3840 1080).1 * 1080
          = (computeTargetDims 3840 1080).2 * 3840
      ∧ (computeTargetDims 3840 1080).1 ≤ 1920
      ∧ (computeTargetDims 3840 1080).2 ≤ 1920
      ∧ ((3840 : ℚ) ≤ 1920 → (1080 : ℚ) ≤ 1920 →
          computeTargetDims 3840 1080 = (3840, 1080))) :=
  ⟨by norm_num, by norm_num, by norm_num [computeTargetDims],
    image_resize_dims 3840 1080 (by norm_num) (by norm_num)⟩

/-! ### C5 — error-message extraction -/

/-- A possibly-absent value that is falsy whenever present. -/
def jsFalsyOpt (o : Option Json) : Prop :=
  ∀ v, o = some v → v.truthy = false

/-- When the `detail` field holds a non-string value, extraction proceeds
through the `detail?.error || detail?.message || ""` chain. -/
theorem extractErrorMessage_of_detail_nonstr (ed : Json) (st : Nat)
    (stx : String) (d : Json) (hd : ed.getField "detail" = some d)
    (hns : ∀ s, d ≠ Json.str s) :
    extractErrorMessage (some ed) st stx =
      ExtractOutcome.thrown
        (if ((jsOr (jsGet (some d) "error")
              (jsOr (jsGet (some d) "message")
                (some (Json.str "")))).getD Json.null).truthy
         then jsString ((jsOr (jsGet (some d) "error")
              (jsOr (jsGet (some d) "message")
                (some (Json.str "")))).getD Json.null)
         else toString st ++ " " ++ stx) := by
  cases ed
  case obj fs =>
    cases d with
    | str s => exact absurd rfl (hns s)
    | null => simp [extractErrorMessage, hd]
    | bool b => simp [extractErrorMessage, hd]
    | num n => simp [extractErrorMessage, hd]
    | arr xs => simp [extractErrorMessage, hd]
    | obj fs2 => simp [extractErrorMessage, hd]
  all_goals simp [Json.getField] at hd

/-- C5 amended: for every non-2xx response whose parsed body is not the
JSON literal `null`, the user-facing error message is extracted with fixed
precedence — (1) a (nonempty) string-valued `detail` field; (2) a
(nonempty) string `detail.error`; (3) a (nonempty) string `detail.message`
when `detail.error` is absent or falsy; (4) the fallback
"(status code) (status text)" when `detail` is absent — and an unparseable
body is replaced by `{}`, so it degrades to the fallback; when the parsed
body IS the JSON literal `null`, the plain `errorData.detail` access
instead throws a TypeError, which is surfaced to the user in place of the
fallback.  In particular `{ detail: { message: "bad slot" } }` at HTTP 422
yields "bad slot" and an unparseable body at HTTP 500 yields
"500 Internal Server Error". -/
theorem error_extraction_precedence :
    (∀ (ed : Json) (st : Nat) (stx : String) (s : String), s ≠ "" →
        ed.getField "detail" = some (Json.str s) →
        extractErrorMessage (some ed) st stx = ExtractOutcome.thrown s)
    ∧ (∀ (ed : Json) (st : Nat) (stx : String) (d : Json) (e : String),
        ed.getField "detail" = some d → (∀ s, d ≠ Json.str s) → e ≠ "" →
        jsGet (some d) "error" = some (Json.str e) →
        extractErrorMessage (some ed) st stx = ExtractOutcome.thrown e)
    ∧ (∀ (ed : Json) (st : Nat) (stx : String) (d : Json) (m : String),
        ed.getField "detail" = some d → (∀ s, d ≠ Json.str s) →
        jsFalsyOpt (jsGet (some d) "error") → m ≠ "" →
        jsGet (some d) "message" = some (Json.str m) →
        extractErrorMessage (some ed) st stx = ExtractOutcome.thrown m)
    ∧ (∀ (st : Nat) (stx : String) (body : Option Json),
        body ≠ some Json.null →
        (body.getD (Json.obj [])).getField "detail" = none →
        extractErrorMessage body st stx
          = ExtractOutcome.thrown (toString st ++ " " ++ stx))
    ∧ (∀ (st : Nat) (stx : String),
        extractErrorMessage (some Json.null) st stx
          = ExtractOutcome.typeError)
    ∧ extractErrorMessage
        (some (Json.obj [("detail", Json.obj [("message", Json.str "bad slot")])]))
        422 "Unprocessable Entity" = ExtractOutcome.thrown "bad slot"
    ∧ extractErrorMessage none 500 "Internal Server Error"
        = ExtractOutcome.thrown "500 Internal Server Error" := by
  refine ⟨?_, ?_, ?_, ?_, ?_, ?_, ?_⟩
  · intro ed st stx s hs hd
    cases ed
    case obj fs =>
      simp [extractErrorMessage, hd, Json.truthy, hs, jsString, jsStringFuel]
    all_goals simp [Json.getField] at hd
  · intro ed st stx d e hd hns he hget
    rw [extractErrorMessage_of_detail_nonstr ed st stx d hd hns, hget]
    simp [jsOr, Json.truthy, he, jsString, jsStringFuel]
  · intro ed st stx d m hd hns hfalsy hm hgetm
    rw [extractErrorMessage_of_detail_nonstr ed st stx d hd hns]
    have h1 : jsOr (jsGet (some d) "error")
        (jsOr (jsGet (some d) "message") (some (Json.str "")))
        = jsOr (jsGet (some d) "message") (some (Json.str "")) := by
      cases hg : jsGet (some d) "error" with
      | none => simp [jsOr]
      | some v => simp [jsOr, hfalsy v hg]
    rw [h1, hgetm]
    simp [jsOr, Json.truthy, hm, jsString, jsStringFuel]
  · intro st stx body hne hdet
    cases body with
    | none =>
        simp [extractErrorMessage, Json.getField, jsGet, jsOr, Json.truthy,
          List.lookup]
    | some ed =>
        simp only [Option.getD_some] at hdet
        cases ed
        case null => exact absurd rfl hne
        case obj fs =>
          simp [extractErrorMessage, hdet, jsGet, jsOr, Json.truthy]
        all_goals
          simp [extractErrorMessage, Json.getField, jsGet, jsOr, Json.truthy]
  · intro st stx
    rfl
  · decide
  · decide

/-- C5 witness: the second precedence level applied to a concrete body
`{ detail: { error: "boom", message: "ignored" } }` at HTTP 400. -/
theorem error_extraction_precedence_witness :
    extractErrorMessage
      (some (Json.obj [("detail",
        Json.obj [("error", Json.str "boom"), ("message", Json.str "ignored")])]))
      400 "Bad Request" = ExtractOutcome.thrown "boom" :=
  error_extraction_precedence.2.1
    (Json.obj [("detail",
      Json.obj [("error", Json.str "boom"), ("message", Json.str "ignored")])])
    400 "Bad Request"
    (Json.obj [("error", Json.str "boom"), ("message", Json.str "ignored")])
    "boom" (by simp [Json.getField, List.lookup])
    (by intro s h; exact Json.noConfusion h)
    (by simp)
    (by simp [jsGet, Json.getField, List.lookup])

/-- C5 counterexample: a non-2xx response whose body parses to the JSON
literal `null` does not degrade to the "500 Internal Server Error"
fallback — the unguarded `errorData.detail` access throws a TypeError,
which is what the user sees. -/
theorem error_extraction_null_body_cx :
    extractErrorMessage (some Json.null) 500 "Internal Server Error"
      = ExtractOutcome.typeError
    ∧ ExtractOutcome.typeError
        ≠ ExtractOutcome.thrown "500 Internal Server Error" :=
  ⟨rfl, by decide⟩

/-! ### C3 — envelope decoding of absent collection fields -/

/-- C3 counterexample: decoding a success body that lacks `charts` yields an
envelope in which the field is still absent (`undefined`), not an empty
sequence — `setResp(data)` stores the parsed body verbatim, so the claimed
defaulting does not happen. -/
theorem decode_missing_charts_not_defaulted :
    (decodeEnvelope (Json.obj [("status", Json.str "OK")])).getField "charts"
      ≠ some (Json.arr []) := by
  simp [decodeEnvelope, Json.getField, List.lookup]

/-- C3 amended: for every successfully parsed body in which a collection
field (charts/tables/citations/logs) is absent, decoding raises no error
and leaves the field absent (`none`) rather than defaulting it, and the
rendering guard treats the absent field exactly like an explicitly empty
sequence: nothing is rendered in either case. -/
theorem decode_missing_collections_amended (body : Json) (f : String)
    (h : body.getField f = none) :
    (decodeEnvelope body).getField f = none
    ∧ collectionViewRenders ((decodeEnvelope body).getField f)
        = collectionViewRenders (some (Json.arr [])) := by
  refine ⟨h, ?_⟩
  rw [decodeEnvelope, h]
  rfl

/-- C3 witness: the amended theorem applied to a body carrying only a
`status` field. -/
theorem decode_missing_collections_amended_witness :
    (Json.obj [("status", Json.str "OK")]).getField "charts" = none
    ∧ ((decodeEnvelope (Json.obj [("status", Json.str "OK")])).getField "charts" = none
      ∧ collectionViewRenders
          ((decodeEnvelope (Json.obj [("status", Json.str "OK")])).getField "charts")
        = collectionViewRenders (some (Json.arr []))) :=
  ⟨by simp [Json.getField, List.lookup],
    decode_missing_collections_amended _ _ (by simp [Json.getField, List.lookup])⟩

/-! ### C4 — markdown rendering -/

/-- C4 counterexample: the renderer's output is a raw HTML string handed to
`dangerouslySetInnerHTML`, with the user/LLM-sourced text interpolated
unescaped — markup in the input passes through verbatim — so the output is
not a tree of typed nodes. -/
theorem renderMarkdown_raw_unescaped :
    renderMarkdown "<em>raw</em>" = some "<em>raw</em>" := by decide

/-- C4 amended: for the input "# Title\n**bold** text" the renderer
produces the single raw HTML string
"<h1 class=\"md-h1\">Title</h1>\n<strong>bold</strong> text" — level-1
heading markup around "Title" followed by bold markup around "bold" and the
trailing text " text" — rather than a heading node and a paragraph node of
a typed tree. -/
theorem renderMarkdown_example :
    renderMarkdown "# Title\n**bold** text"
      = some "<h1 class=\"md-h1\">Title</h1>\n<strong>bold</strong> text" := by
  decide

end ParksUI
